import Mathlib

/-!
Verification of the sentiment-dashboard collection-to-recommendation pipeline.

The TypeScript sources are shallowly embedded: JS strings become `List Char`,
JS numbers become exact rationals (`ℚ`, or `ℤ` for timestamps) — extended
with NaN and the infinities (`JsNum`) where JS coercion semantics need
them — a fallible external call becomes an `Option String` argument
(`none` models the call throwing), and `JSON.parse` is embedded as a
fuel-based JSON parser over character lists.
-/

/-- JS strings are modelled as lists of characters. -/
abbrev Str := List Char

/-- Model of `String.prototype.toLowerCase` (ASCII-faithful). -/
def lc (s : Str) : Str := s.map Char.toLower

/-- Model of the whitespace class used by `trim` and by the regex class
backslash-s (ASCII subset: space, tab, CR, LF). -/
def jsWs (c : Char) : Bool := c.isWhitespace

/-- Model of `String.prototype.trim`: drop whitespace from both ends. -/
def jsTrim (s : Str) : Str :=
  ((s.dropWhile jsWs).reverse.dropWhile jsWs).reverse

/-- Model of `String.prototype.includes`: `strIncludes hay needle` is true
iff `needle` occurs contiguously inside `hay`. -/
def strIncludes (hay needle : Str) : Bool :=
  hay.tails.any (fun t => needle.isPrefixOf t)

/-- JSON values, the image of `JSON.parse`. -/
inductive JVal where
  | jnull : JVal
  | jbool (b : Bool) : JVal
  /-- A JSON number, stored exactly as `mantissa * 10 ^ exponent10` so that
  the parser needs only integer arithmetic. -/
  | jnum (mantissa : ℤ) (exponent10 : ℤ) : JVal
  | jstr (s : Str) : JVal
  | jarr (elems : List JVal) : JVal
  | jobj (fields : List (Str × JVal)) : JVal
deriving Inhabited

/-- JSON insignificant whitespace (space, tab, LF, CR). -/
def jsonWs (c : Char) : Bool := c = ' ' || c = '\t' || c = '\n' || c = '\r'

def skipJsonWs (s : Str) : Str := s.dropWhile jsonWs

def hexVal (c : Char) : Option ℕ :=
  if '0' ≤ c ∧ c ≤ '9' then some (c.toNat - '0'.toNat)
  else if 'a' ≤ c ∧ c ≤ 'f' then some (c.toNat - 'a'.toNat + 10)
  else if 'A' ≤ c ∧ c ≤ 'F' then some (c.toNat - 'A'.toNat + 10)
  else none

/-- Parse the body of a JSON string literal (the opening quote already
consumed); returns the decoded characters and the rest of the input. -/
def parseJsonStr : ℕ → Str → Option (Str × Str)
  | 0, _ => none
  | _, [] => none
  | fuel + 1, c :: rest =>
    if c = '"' then some ([], rest)
    else if c = '\\' then
      match rest with
      | [] => none
      | e :: rest2 =>
        let dec : Option (Char × Str) :=
          if e = '"' then some ('"', rest2)
          else if e = '\\' then some ('\\', rest2)
          else if e = '/' then some ('/', rest2)
          else if e = 'b' then some ('\x08', rest2)
          else if e = 'f' then some ('\x0c', rest2)
          else if e = 'n' then some ('\n', rest2)
          else if e = 'r' then some ('\r', rest2)
          else if e = 't' then some ('\t', rest2)
          else if e = 'u' then
            match rest2 with
            | h1 :: h2 :: h3 :: h4 :: rest3 =>
              match hexVal h1, hexVal h2, hexVal h3, hexVal h4 with
              | some a, some b, some c3, some d =>
                some (Char.ofNat (((a * 16 + b) * 16 + c3) * 16 + d), rest3)
              | _, _, _, _ => none
            | _ => none
          else none
        match dec with
        | none => none
        | some (ch, rest3) =>
          match parseJsonStr fuel rest3 with
          | some (tail, rest4) => some (ch :: tail, rest4)
          | none => none
    else if c.toNat < 32 then none
    else
      match parseJsonStr fuel rest with
      | some (tail, rest2) => some (c :: tail, rest2)
      | none => none

def digitsToNat (ds : Str) : ℕ :=
  ds.foldl (fun a c => 10 * a + (c.toNat - '0'.toNat)) 0

/-- Parse a JSON number (sign, integer part with no leading zeros, optional
fraction, optional exponent); the exact decimal value is returned as a
mantissa/power-of-ten pair. -/
def parseJsonNum (s : Str) : Option ((ℤ × ℤ) × Str) :=
  let (sgn, s1) : ℤ × Str :=
    match s with
    | '-' :: rest => (-1, rest)
    | _ => (1, s)
  let intDigits := s1.takeWhile Char.isDigit
  let s2 := s1.dropWhile Char.isDigit
  if intDigits = [] then none
  else if intDigits.length > 1 ∧ intDigits.head? = some '0' then none
  else
    let (mant1, exp1, s3) : ℤ × ℤ × Str :=
      match s2 with
      | '.' :: rest =>
        let fd := rest.takeWhile Char.isDigit
        (if fd = [] then ((digitsToNat intDigits : ℤ), 0, s2) else
          ((digitsToNat intDigits : ℤ) * (10 : ℤ) ^ fd.length + (digitsToNat fd : ℤ),
           -(fd.length : ℤ), rest.dropWhile Char.isDigit))
      | _ => ((digitsToNat intDigits : ℤ), 0, s2)
    -- a '.' with no digits after it is a parse error in JSON
    if s2.head? = some '.' ∧ s3 = s2 then none
    else
      match s3 with
      | e :: rest4 =>
        if e = 'e' ∨ e = 'E' then
          let (esgn, s5) : ℤ × Str :=
            match rest4 with
            | '+' :: r => (1, r)
            | '-' :: r => (-1, r)
            | _ => (1, rest4)
          let eds := s5.takeWhile Char.isDigit
          if eds = [] then none
          else
            some ((sgn * mant1, exp1 + esgn * (digitsToNat eds : ℤ)),
                  s5.dropWhile Char.isDigit)
        else some ((sgn * mant1, exp1), s3)
      | [] => some ((sgn * mant1, exp1), [])

/-- The rational value of a parsed JSON number. -/
def q10 (mantissa exponent10 : ℤ) : ℚ := (mantissa : ℚ) * (10 : ℚ) ^ exponent10

mutual

/-- Fuel-based parser for a single JSON value; returns the value and the
unconsumed rest of the input. -/
def parseJsonVal : ℕ → Str → Option (JVal × Str)
  | 0, _ => none
  | fuel + 1, s =>
    let s := skipJsonWs s
    match s with
    | [] => none
    | 'n' :: 'u' :: 'l' :: 'l' :: rest => some (.jnull, rest)
    | 't' :: 'r' :: 'u' :: 'e' :: rest => some (.jbool true, rest)
    | 'f' :: 'a' :: 'l' :: 's' :: 'e' :: rest => some (.jbool false, rest)
    | '"' :: rest =>
      match parseJsonStr (rest.length + 1) rest with
      | some (str, rest2) => some (.jstr str, rest2)
      | none => none
    | '[' :: rest =>
      let rest1 := skipJsonWs rest
      match rest1 with
      | ']' :: rest2 => some (.jarr [], rest2)
      | _ =>
        match parseJsonElems fuel rest1 with
        | some (elems, rest2) => some (.jarr elems, rest2)
        | none => none
    | '{' :: rest =>
      let rest1 := skipJsonWs rest
      match rest1 with
      | '}' :: rest2 => some (.jobj [], rest2)
      | _ =>
        match parseJsonFields fuel rest1 with
        | some (fields, rest2) => some (.jobj fields, rest2)
        | none => none
    | _ =>
      match parseJsonNum s with
      | some ((m, e), rest) => some (.jnum m e, rest)
      | none => none

/-- Parse one or more comma-separated array elements followed by a closing
bracket. -/
def parseJsonElems : ℕ → Str → Option (List JVal × Str)
  | 0, _ => none
  | fuel + 1, s =>
    match parseJsonVal fuel s with
    | none => none
    | some (v, rest) =>
      match skipJsonWs rest with
      | ',' :: rest2 =>
        match parseJsonElems fuel rest2 with
        | some (vs, rest3) => some (v :: vs, rest3)
        | none => none
      | ']' :: rest2 => some ([v], rest2)
      | _ => none

/-- Parse one or more comma-separated object members followed by a closing
brace. -/
def parseJsonFields : ℕ → Str → Option (List (Str × JVal) × Str)
  | 0, _ => none
  | fuel + 1, s =>
    match skipJsonWs s with
    | '"' :: rest =>
      match parseJsonStr (rest.length + 1) rest with
      | none => none
      | some (key, rest2) =>
        match skipJsonWs rest2 with
        | ':' :: rest3 =>
          match parseJsonVal fuel rest3 with
          | none => none
          | some (v, rest4) =>
            match skipJsonWs rest4 with
            | ',' :: rest5 =>
              match parseJsonFields fuel rest5 with
              | some (fs, rest6) => some ((key, v) :: fs, rest6)
              | none => none
            | '}' :: rest5 => some ([(key, v)], rest5)
            | _ => none
        | _ => none
    | _ => none

end

/-- Model of `JSON.parse`: parse a complete JSON text (trailing content other
than whitespace is an error). -/
def jsonParse (s : Str) : Option JVal :=
  match parseJsonVal (2 * s.length + 4) s with
  | some (v, rest) => if skipJsonWs rest = [] then some v else none
  | none => none

/-- Property access on a parsed JSON object (`JSON.parse` keeps the last
of duplicate keys). -/
def jget (fields : List (Str × JVal)) (k : Str) : Option JVal :=
  ((fields.filter (fun f => f.1 = k)).getLast?).map Prod.snd

/-- Leftmost match of the greedy regex for a bracketed JSON array (first
opening bracket through the last closing bracket of the whole text). -/
def extractJsonArrayGreedy (s : Str) : Option Str :=
  match s.findIdx? (fun c => c = '[') with
  | none => none
  | some i =>
    match s.reverse.findIdx? (fun c => c = ']') with
    | none => none
    | some jr =>
      let j := s.length - 1 - jr
      if i < j then some ((s.take (j + 1)).drop i) else none

/-- Leftmost match of the non-greedy regex for a bracketed JSON array (first
opening bracket through the first closing bracket after it). -/
def extractJsonArrayNonGreedy (s : Str) : Option Str :=
  match s.findIdx? (fun c => c = '[') with
  | none => none
  | some i =>
    let rest := s.drop i
    match (rest.drop 1).findIdx? (fun c => c = ']') with
    | none => none
    | some k => some (rest.take (k + 2))

/-- Leftmost match of the regex for a brace-delimited run with at least one
non-brace character inside (a nesting-free JSON object candidate). -/
def extractJsonObjF : ℕ → Str → Option Str
  | 0, _ => none
  | fuel + 1, s =>
    match s.findIdx? (fun c => c = '{') with
    | none => none
    | some i =>
      let rest := s.drop i
      match (rest.drop 1).findIdx? (fun c => c = '}') with
      | none => none
      | some k =>
        if 1 ≤ k then some (rest.take (k + 2))
        else extractJsonObjF fuel (rest.drop 1)

def extractJsonObj (s : Str) : Option Str := extractJsonObjF (s.length + 1) s

namespace TopicGenerator

/-- Model of `TopicGenerator.parseTopics`: extract the first JSON array from
the response, parse it, and keep the trimmed non-empty strings. -/
def parseTopics (response : Str) : List Str :=
  match extractJsonArrayGreedy response with
  | none => []
  | some jsonText =>
    match jsonParse jsonText with
    | some (.jarr topics) =>
      topics.filterMap (fun t =>
        match t with
        | .jstr s => if 0 < (jsTrim s).length then some (jsTrim s) else none
        | _ => none)
    | _ => []

/-- Model of `TopicGenerator.generateTopics`; the classification call is an
`Option Str` argument (`none` models the call throwing). `count` only shapes
the prompt, never the parsing. -/
def generateTopics (company : Str) (count : ℕ) (call : Option Str) : List Str :=
  match call with
  | none => [company]
  | some result => parseTopics result

end TopicGenerator

/-- Sentiment labels of the `SentimentResult` interface. -/
inductive Label where
  | positive : Label
  | neutral : Label
  | negative : Label
deriving DecidableEq, Inhabited

/-- A JS number value: a finite (exactly represented) number, an infinity,
or NaN. -/
inductive JsNum where
  | num (q : ℚ) : JsNum
  | inf : JsNum
  | negInf : JsNum
  | nan : JsNum
deriving DecidableEq, Inhabited

/-- Model of a binary `Math.min` (NaN propagates through it). -/
def jsMin : JsNum → JsNum → JsNum
  | .nan, _ => .nan
  | _, .nan => .nan
  | .num a, .num b => .num (min a b)
  | .negInf, _ => .negInf
  | _, .negInf => .negInf
  | .inf, b => b
  | a, .inf => a

/-- Model of a binary `Math.max` (NaN propagates through it). -/
def jsMax : JsNum → JsNum → JsNum
  | .nan, _ => .nan
  | _, .nan => .nan
  | .num a, .num b => .num (max a b)
  | .inf, _ => .inf
  | _, .inf => .inf
  | .negInf, b => b
  | a, .negInf => a

/-- JS falsiness of a property read off a `JSON.parse` result, as consumed
by `x || 0` (`none` models `undefined`; the falsy values reachable here are
`undefined`, `null`, `false`, `0` and the empty string; arrays and objects
are always truthy). -/
def jsFalsy : Option JVal → Bool
  | none => true
  | some .jnull => true
  | some (.jbool b) => !b
  | some (.jnum m _) => m = 0
  | some (.jstr s) => s.isEmpty
  | some (.jarr _) => false
  | some (.jobj _) => false

/-- Digits folded into a natural number in a given base. -/
def digitsToNatBase (base : ℕ) (digitVal : Char → ℕ) (ds : Str) : ℕ :=
  ds.foldl (fun a c => base * a + digitVal c) 0

/-- The exponent part of the string numeric grammar (`e`/`E`, optional
sign, one or more digits); returns the exponent and the unconsumed rest. -/
def parseExpPart (s : Str) : Option (ℤ × Str) :=
  match s with
  | c :: rest =>
    if c = 'e' ∨ c = 'E' then
      let (sgn, r1) : ℤ × Str :=
        match rest with
        | '+' :: r => (1, r)
        | '-' :: r => (-1, r)
        | _ => (1, rest)
      let ds := r1.takeWhile Char.isDigit
      if ds = [] then none
      else some (sgn * (digitsToNat ds : ℤ), r1.dropWhile Char.isDigit)
    else none
  | [] => none

/-- An unsigned decimal literal of the string numeric grammar: digits, an
optional dot with optional fraction digits, an optional exponent (leading
zeros and a bare leading or trailing dot are allowed, unlike in JSON); the
whole input must be consumed. -/
def parseUnsignedDecimal (t : Str) : Option ℚ :=
  let intD := t.takeWhile Char.isDigit
  let r1 := t.dropWhile Char.isDigit
  match r1 with
  | '.' :: r2 =>
    let fracD := r2.takeWhile Char.isDigit
    let r3 := r2.dropWhile Char.isDigit
    if intD = [] ∧ fracD = [] then none
    else
      let base : ℚ := (digitsToNat (intD ++ fracD) : ℚ) / (10 : ℚ) ^ fracD.length
      match parseExpPart r3 with
      | some (e, []) => some (base * (10 : ℚ) ^ e)
      | some (_, _ :: _) => none
      | none => if r3 = [] then some base else none
  | _ =>
    if intD = [] then none
    else
      let base : ℚ := (digitsToNat intD : ℚ)
      match parseExpPart r1 with
      | some (e, []) => some (base * (10 : ℚ) ^ e)
      | some (_, _ :: _) => none
      | none => if r1 = [] then some base else none

/-- A non-decimal integer literal of the string numeric grammar (`0x`,
`0b` or `0o` with at least one digit and no sign); the whole input must be
consumed. -/
def parseNonDecimal (t : Str) : Option ℚ :=
  match t with
  | '0' :: c :: rest =>
    if (c = 'x' ∨ c = 'X') ∧ rest ≠ [] ∧ rest.all (fun d => (hexVal d).isSome) then
      some ((digitsToNatBase 16 (fun d => (hexVal d).getD 0) rest : ℕ) : ℚ)
    else if (c = 'b' ∨ c = 'B') ∧ rest ≠ [] ∧ rest.all (fun d => d = '0' ∨ d = '1') then
      some ((digitsToNatBase 2 (fun d => d.toNat - '0'.toNat) rest : ℕ) : ℚ)
    else if (c = 'o' ∨ c = 'O') ∧ rest ≠ [] ∧ rest.all (fun d => '0' ≤ d ∧ d ≤ '7') then
      some ((digitsToNatBase 8 (fun d => d.toNat - '0'.toNat) rest : ℕ) : ℚ)
    else none
  | _ => none

/-- Model of the `ToNumber` conversion of a string: trim, empty is 0, then
a non-decimal integer literal, a signed `Infinity`, or a signed decimal
literal; anything else is NaN. -/
def strToNumber (s : Str) : JsNum :=
  let t := jsTrim s
  if t = [] then .num 0
  else
    match parseNonDecimal t with
    | some q => .num q
    | none =>
      let (sgn, t1) : ℤ × Str :=
        match t with
        | '+' :: r => (1, r)
        | '-' :: r => (-1, r)
        | _ => (1, t)
      if t1 = "Infinity".toList then (if sgn = 1 then JsNum.inf else JsNum.negInf)
      else
        match parseUnsignedDecimal t1 with
        | some q => .num ((sgn : ℚ) * q)
        | none => .nan

/-- Model of JS `ToNumber` on a `JSON.parse`-produced value. An array goes
through `ToPrimitive`, a comma-join of its stringified elements: the empty
join is 0, a join of two or more elements always contains a comma and
re-parses to NaN, and a singleton unwraps (`String` of a number re-parses
to the same value, `null` renders empty, booleans and plain objects render
as non-numeric words, a nested array joins recursively). A plain object
renders as a bracketed word and is always NaN. -/
def toNumber : JVal → JsNum
  | .jnum m e => .num (q10 m e)
  | .jbool b => .num (if b then 1 else 0)
  | .jnull => .num 0
  | .jstr s => strToNumber s
  | .jobj _ => .nan
  | .jarr [] => .num 0
  | .jarr [.jnum m e] => .num (q10 m e)
  | .jarr [.jnull] => .num 0
  | .jarr [.jbool _] => .nan
  | .jarr [.jstr s] => strToNumber s
  | .jarr [.jobj _] => .nan
  | .jarr [.jarr inner] => toNumber (.jarr inner)
  | .jarr (_ :: _ :: _) => .nan

/-- The value of `parsed.score || 0`: the number 0 when the field is falsy,
the field's value otherwise. -/
def orZero (v : Option JVal) : JVal :=
  if jsFalsy v then .jnum 0 0 else v.getD (.jnum 0 0)

/-- Model of `Math.max(-100, Math.min(100, parsed.score || 0))`, including
the `ToNumber` coercion the two `Math` calls apply to a non-numeric field
(through which NaN can escape the clamp). -/
def coerceClampScore (v : Option JVal) : JsNum :=
  jsMax (.num (-100)) (jsMin (.num 100) (toNumber (orZero v)))

/-- Model of the `SentimentResult` interface (the score is a JS number,
which can be NaN). -/
structure SentimentResult where
  label : Label
  score : JsNum
deriving DecidableEq

namespace SentimentAnalyzer

/-- Model of `SentimentAnalyzer.parseResponse`: the first brace-delimited
run is parsed as JSON; both a missing match and a `JSON.parse` failure are
failures (the TypeScript throws, caught inside `analyze`). A successful
parse of a brace-delimited text is always an object. -/
def parseResponse (response : Str) : Option (List (Str × JVal)) :=
  match extractJsonObj response with
  | none => none
  | some jsonText =>
    match jsonParse jsonText with
    | some (.jobj fields) => some fields
    | _ => none

/-- Model of `SentimentAnalyzer.validateResult`. An unknown `sentiment`
string falls back to neutral while the score is kept; the score is the JS
coercion-and-clamp of the `score` field: a falsy field (absent, null,
false, 0, empty string) yields 0, a number is clamped into `[-100, 100]`,
and any other truthy value is `ToNumber`-coerced, so a non-numeric string
yields NaN, which survives the clamp. -/
def validateResult (fields : List (Str × JVal)) : SentimentResult :=
  let sentiment : Label :=
    match jget fields ("sentiment".toList) with
    | some (.jstr s) =>
      if s = "positive".toList then .positive
      else if s = "neutral".toList then .neutral
      else if s = "negative".toList then .negative
      else .neutral
    | _ => .neutral
  { label := sentiment, score := coerceClampScore (jget fields ("score".toList)) }

/-- Model of `SentimentAnalyzer.getFallbackSentiment`. -/
def getFallbackSentiment : SentimentResult := { label := .neutral, score := .num 0 }

/-- Model of `SentimentAnalyzer.analyze`: the classification call is an
`Option Str` argument (`none` models the call throwing); any exception from
the call or the response parsing yields the fallback. -/
def analyze (call : Option Str) : SentimentResult :=
  match call with
  | none => getFallbackSentiment
  | some result =>
    match parseResponse result with
    | none => getFallbackSentiment
    | some parsed => validateResult parsed

end SentimentAnalyzer

/-- Model of `ContentItem` (the fields the relevance filter reads). -/
structure ContentItem where
  id : Str
  text : Str
deriving DecidableEq, Inhabited

namespace RelevanceFilter

/-- The curated sentiment-indicator lexicon of `hasSentimentIndicators`. -/
def sentimentWords : List Str :=
  (["love", "great", "awesome", "amazing", "excellent", "fantastic",
    "wonderful", "good", "best", "happy", "satisfied", "recommend",
    "impressed", "perfect", "outstanding", "brilliant", "superb",
    "hate", "terrible", "awful", "horrible", "worst", "bad",
    "disappointed", "frustrat", "annoying", "poor", "sucks", "waste",
    "regret", "avoid", "pathetic", "useless", "garbage",
    "experience", "opinion", "think", "feel", "seems", "compared to",
    "better than", "worse than", "not as good", "review", "rating",
    "prefer", "disappoint", "concern"] : List String).map String.toList

/-- The stricter lexicon of `hasStrongSentimentIndicators`. -/
def strongSentimentWords : List Str :=
  (["love", "amazing", "excellent", "fantastic", "wonderful", "best",
    "impressed", "perfect", "outstanding", "brilliant", "superb",
    "highly recommend",
    "hate", "terrible", "awful", "horrible", "worst", "disappointed",
    "frustrat", "sucks", "waste", "regret", "avoid", "pathetic",
    "useless", "garbage"] : List String).map String.toList

def hasSentimentIndicators (lowerText : Str) : Bool :=
  sentimentWords.any (fun w => strIncludes lowerText w)

def hasStrongSentimentIndicators (lowerText : Str) : Bool :=
  strongSentimentWords.any (fun w => strIncludes lowerText w)

/-- The job-posting keyword list of `isObviouslyIrrelevant`. -/
def jobKeywords : List Str :=
  (["hiring", "we're hiring", "we are hiring", "now hiring", "job opening",
    "position available", "apply now", "send resume", "send cv",
    "looking for candidates", "join our team", "careers at", "job posting",
    "employment opportunity", "work with us", "[hiring]", "remote position",
    "full-time position", "part-time position", "salary range",
    "years of experience", "apply here", "application deadline",
    "job description", "responsibilities include", "qualifications:",
    "requirements:", "benefits:", "competitive salary",
    "equal opportunity"] : List String).map String.toList

/-- The spam/promotional keyword list of `isObviouslyIrrelevant`. -/
def spamKeywords : List Str :=
  (["click here", "buy now", "limited time offer", "act now",
    "visit our website", "check out our", "dm for details", "link in bio",
    "subscribe to", "follow us", "follow me",
    "check my profile"] : List String).map String.toList

/-- The anchored/unanchored news-pattern alternatives (the regexes carry the
case-insensitive flag and are applied to the trimmed text, so the test is on
its lowercasing). -/
def newsPatternsTest (trimmedText : Str) : Bool :=
  let t := lc trimmedText
  ("breaking:".toList).isPrefixOf t || ("update:".toList).isPrefixOf t ||
  ("news:".toList).isPrefixOf t || ("just announced".toList).isPrefixOf t ||
  strIncludes t ("has announced that".toList) ||
  strIncludes t ("according to reports".toList) ||
  strIncludes t ("sources say".toList)

/-- The anchored technical-support patterns (applied to the lowercased,
untrimmed text; each regex alternation is expanded into its branches). -/
def techSupportPatternsTest (lowerText : Str) : Bool :=
  (["how do i", "how to", "how can i", "can someone help", "need help with",
    "anyone know how", "does anyone know", "is there a way to",
    "what's the best way to", "what is the best way to",
    "looking for a", "looking for an", "looking for the",
    "where can i", "where do i"] : List String).any
    (fun p => p.toList.isPrefixOf lowerText)

/-- The anchored generic-discussion-prompt patterns (applied to the
lowercased, untrimmed text; alternations expanded). -/
def genericPatternsTest (lowerText : Str) : Bool :=
  (["what do you", "what would you", "which do you", "which would you",
    "thoughts on", "opinions on", "what are your", "what are everyone's",
    "what is your", "what is everyone's"] : List String).any
    (fun p => p.toList.isPrefixOf lowerText)

/-- Model of `RelevanceFilter.isObviouslyIrrelevant` (`true` means the item
is discarded by the heuristic pre-filter). Splitting on whitespace uses
`splitOnP`, which differs from the JS split on a whitespace *run* only by
extra empty segments — invisible under the `length > 3` guard. -/
def isObviouslyIrrelevant (text company : Str) : Bool :=
  let lowerText := lc text
  let lowerCompany := lc company
  if !hasSentimentIndicators lowerText then true
  else if !(strIncludes lowerText lowerCompany) &&
          !((lowerCompany.splitOnP jsWs).any
              (fun word => decide (3 < word.length) && strIncludes lowerText word)) then true
  else if jobKeywords.any (fun k => strIncludes lowerText k) then true
  else if newsPatternsTest (jsTrim text) &&
          !hasStrongSentimentIndicators lowerText then true
  else if techSupportPatternsTest lowerText then true
  else if spamKeywords.any (fun k => strIncludes lowerText k) then true
  else if genericPatternsTest lowerText &&
          !hasStrongSentimentIndicators lowerText then true
  else if (jsTrim text).length < 30 then true
  else false

/-- Model of `RelevanceFilter.parseRelevantIds`: non-greedy extraction of the
first bracketed run, JSON-parsed; only string entries are kept; every failure
yields the empty id list. -/
def parseRelevantIds (response : Str) : List Str :=
  match extractJsonArrayNonGreedy response with
  | none => []
  | some jsonText =>
    match jsonParse jsonText with
    | some (.jarr ids) =>
      ids.filterMap (fun v =>
        match v with
        | .jstr s => some s
        | _ => none)
    | _ => []

/-- Model of `RelevanceFilter.filterBatch`: the classification call is an
`Option Str` (`none` models the call throwing, in which case the whole batch
is returned); on a successful call only items whose id was parsed back are
kept. -/
def filterBatch (company : Str) (call : Option Str) (items : List ContentItem) :
    List ContentItem :=
  match call with
  | none => items
  | some result =>
    items.filter (fun item => (parseRelevantIds result).contains item.id)

/-- Consecutive slices of size `n` (the `for (i = 0; i < len; i += n)` loop
over `slice(i, i + n)`), driven by fuel so it evaluates by reduction. -/
def chunksAux (n : ℕ) : ℕ → List ContentItem → List (List ContentItem)
  | 0, _ => []
  | _, [] => []
  | fuel + 1, l => l.take n :: chunksAux n fuel (l.drop n)

def chunks (n : ℕ) (l : List ContentItem) : List (List ContentItem) :=
  chunksAux n l.length l

/-- Model of `RelevanceFilter.filterRelevant`: heuristic pre-filter, then the
batched classification; `oracle i` is the outcome of the call for the `i`-th
batch. -/
def filterRelevant (oracle : ℕ → Option Str) (items : List ContentItem)
    (company : Str) (batchSize : ℕ) : List ContentItem :=
  if items = [] then []
  else
    let preFiltered := items.filter (fun item => !isObviouslyIrrelevant item.text company)
    if preFiltered = [] then []
    else
      ((chunks batchSize preFiltered).enum.map
        (fun b => filterBatch company (oracle b.1) b.2)).flatten

end RelevanceFilter

/-- Model of the `MentionData` interface. Timestamps are modelled as epoch
milliseconds (the ISO-8601 rendering is injective on them and not needed by
any analyzed computation). -/
structure MentionData where
  id : Str
  text : Str
  sentiment : Label
  score : ℚ
  author : Str
  subreddit : Str
  created : ℤ
  url : Str
deriving DecidableEq, Inhabited

/-- The three priority tiers. -/
inductive Priority where
  | high : Priority
  | medium : Priority
  | low : Priority
deriving DecidableEq, Inhabited

/-- Model of the `TopicCluster` interface. -/
structure TopicCluster where
  topic : Str
  description : Str
  mentionCount : ℕ
  averageSentiment : ℚ
  positive : ℕ
  neutral : ℕ
  negative : ℕ
  mentions : List MentionData
  shouldAddress : Bool
  priority : Priority

namespace TopicAnalyzer

/-- Model of the per-cluster body of `TopicAnalyzer.analyzeClusters`:
sentiment tallies, average score, the `shouldAddress` rule and the priority
tiers (including the dead `>= 50 / <= -20` branch, kept as in the source). -/
def analyzeCluster (topic description : Str) (mentions : List MentionData) :
    TopicCluster :=
  let positive := (mentions.filter (fun m => m.sentiment == Label.positive)).length
  let neutral := (mentions.filter (fun m => m.sentiment == Label.neutral)).length
  let negative := (mentions.filter (fun m => m.sentiment == Label.negative)).length
  let averageSentiment : ℚ := (mentions.map (fun m => m.score)).sum / (mentions.length : ℚ)
  let negativePercentage : ℚ := ((negative : ℚ) / (mentions.length : ℚ)) * 100
  let shouldAddress : Bool :=
    decide (40 ≤ negativePercentage) ||
      (decide (3 ≤ negative) && decide (averageSentiment < -10))
  let priority : Priority :=
    if shouldAddress then
      if 60 ≤ negativePercentage ∨ averageSentiment ≤ -30 then .high
      else if 50 ≤ negativePercentage ∨ averageSentiment ≤ -20 then .medium
      else .medium
    else .low
  { topic := topic, description := description,
    mentionCount := mentions.length, averageSentiment := averageSentiment,
    positive := positive, neutral := neutral, negative := negative,
    mentions := mentions, shouldAddress := shouldAddress, priority := priority }

end TopicAnalyzer

/-- Model of the `RedditPost` interface (the `data` payload flattened). -/
structure RedditPost where
  id : Str
  title : Str
  selftext : Str
  author : Str
  subreddit : Str
  created_utc : ℤ
  permalink : Str
  score : ℤ
deriving DecidableEq, Inhabited

/-- Tokens of the small regex fragment used by the search post-filter:
literal characters, an optional character, one-or-more whitespace, and a
word boundary. -/
inductive RTok where
  | tch (c : Char) : RTok
  | topt (c : Char) : RTok
  | tws : RTok
  | twb : RTok
deriving DecidableEq

/-- JS regex word characters (the backslash-w class). -/
def isWordChar (c : Char) : Bool := c.isAlphanum || c = '_'

def optIsWord : Option Char → Bool
  | none => false
  | some c => isWordChar c

/-- A word boundary sits between the previous character and the head of the
remaining input (out-of-string counts as a non-word side). -/
def atBoundary (left : Option Char) (s : Str) : Bool :=
  optIsWord left != optIsWord s.head?

/-- Match a token sequence at the current position (fuel-driven backtracking
matcher; `prev` is the character just before the position, for boundaries). -/
def mtoksF : ℕ → List RTok → Option Char → Str → Bool
  | 0, _, _, _ => false
  | fuel + 1, toks, prev, s =>
    match toks with
    | [] => true
    | .tch c :: ts =>
      match s with
      | [] => false
      | x :: xs => x = c && mtoksF fuel ts (some x) xs
    | .topt c :: ts =>
      mtoksF fuel ts prev s ||
        (match s with
         | x :: xs => x = c && mtoksF fuel ts (some x) xs
         | [] => false)
    | .tws :: ts =>
      match s with
      | [] => false
      | x :: xs => jsWs x && (mtoksF fuel ts (some x) xs || mtoksF fuel (.tws :: ts) (some x) xs)
    | .twb :: ts => atBoundary prev s && mtoksF fuel ts prev s

def matchToksAt (toks : List RTok) (prev : Option Char) (s : Str) : Bool :=
  mtoksF (2 * toks.length + 2 * s.length + 1) toks prev s

/-- Search for a match at any position (regex `test`). -/
def rsearchF : ℕ → List RTok → Option Char → Str → Bool
  | 0, _, _, _ => false
  | fuel + 1, toks, prev, s =>
    matchToksAt toks prev s ||
      match s with
      | [] => false
      | x :: xs => rsearchF fuel toks (some x) xs

def rtest (toks : List RTok) (s : Str) : Bool := rsearchF (s.length + 1) toks none s

def litToks (w : Str) : List RTok := w.map RTok.tch

/-- The word-boundary-delimited literal regex built for the company name
(the metacharacter escaping in the source makes the name a literal). -/
def wholeWordToks (w : Str) : List RTok := RTok.twb :: (litToks w ++ [RTok.twb])

namespace RedditClient

/-- Model of `RedditClient.extractText`. -/
def extractText (post : RedditPost) : Str :=
  jsTrim (post.title ++ ' ' :: post.selftext)

/-- Model of `RedditClient.getPostUrl`. -/
def getPostUrl (post : RedditPost) : Str :=
  "https://reddit.com".toList ++ post.permalink

/-- The denylist of `search` (regex alternations expanded into separate
entries, which leaves the any-pattern-matches test unchanged). -/
def irrelevantPatterns : List (List RTok) :=
  [litToks ("tesla".toList) ++ [RTok.tws] ++ litToks ("coil".toList),
   litToks ("nikola".toList) ++ [RTok.tws] ++ litToks ("tesla".toList),
   litToks ("tesla".toList) ++ [RTok.tws] ++ litToks ("unit".toList),
   litToks ("tesla".toList) ++ [RTok.tws] ++ litToks ("measurement".toList),
   [RTok.twb] ++ litToks ("hiring".toList) ++ [RTok.twb],
   [RTok.twb] ++ litToks ("we".toList) ++ [RTok.topt '\''] ++ litToks ("re".toList) ++
     [RTok.tws] ++ litToks ("hiring".toList) ++ [RTok.twb],
   [RTok.twb] ++ litToks ("join".toList) ++ [RTok.tws] ++ litToks ("our".toList) ++
     [RTok.tws] ++ litToks ("team".toList) ++ [RTok.twb],
   [RTok.twb] ++ litToks ("position".toList) ++ [RTok.tws] ++
     litToks ("available".toList) ++ [RTok.twb],
   [RTok.twb] ++ litToks ("resume".toList) ++ [RTok.twb]]

/-- The combined lowercased title plus first 500 characters of body checked
by the strict post-filter. -/
def textToCheck (post : RedditPost) : Str :=
  lc (lc post.title ++ ' ' :: (lc post.selftext).take 500)

/-- The strict post-filter predicate of `RedditClient.search`. -/
def keepPost (company : Str) (post : RedditPost) : Bool :=
  let title := lc post.title
  let lowerCompany := lc company
  let t := textToCheck post
  let appearsInTitle := rtest (wholeWordToks lowerCompany) title
  let appearsEarlyInPost := rtest (wholeWordToks lowerCompany) t
  if !appearsInTitle && !appearsEarlyInPost then false
  else if irrelevantPatterns.any (fun pat => rtest pat t) then false
  else true

/-- Model of the filtering/slicing tail of `RedditClient.search` (after a
successful fetch): the strict company filter (skipped for an absent or empty
company, which is falsy in JS) followed by `slice(0, limit)`. -/
def searchPostFilter (company : Option Str) (limit : ℕ) (posts : List RedditPost) :
    List RedditPost :=
  (match company with
   | some c => if c = [] then posts else posts.filter (keepPost c)
   | none => posts).take limit

end RedditClient

/-- One point of the synthesized history series. -/
structure HistoryPoint where
  timestamp : ℤ
  score : ℚ
deriving DecidableEq, Inhabited

namespace HistoryGenerator

/-- Model of `HistoryGenerator.generate`. `Math.random()` is modelled as an
injected sequence `rand` consumed two values per iteration, and `Date.now()`
as the argument `now` (epoch milliseconds). Iteration `j` of the list is the
loop pass with `i = hours - 1 - j`. -/
def generate (rand : ℕ → ℚ) (now : ℤ) (currentScore : ℚ) (hours : ℕ) :
    List HistoryPoint :=
  (List.range hours).map (fun j =>
    let i : ℕ := hours - 1 - j
    let timestamp : ℤ := now - (i : ℤ) * 60 * 60 * 1000
    let timeWeight : ℚ := (i : ℚ) / (hours : ℚ)
    let maxVariance : ℚ := 30 * timeWeight
    let variance : ℚ := (rand (2 * j) - 1 / 2) * maxVariance
    let trendWeight : ℚ := 1 - timeWeight
    let historicalBase : ℚ := currentScore * trendWeight
    let randomBase : ℚ := (rand (2 * j + 1) - 1 / 2) * 100 * (1 - trendWeight)
    { timestamp := timestamp,
      score := max (-100) (min 100 (historicalBase + randomBase + variance)) })

end HistoryGenerator

/-- The comment records assembled by the orchestration before relevance
filtering (`id/text/author/subreddit/created/url/postTitle`). -/
structure CommentRecord where
  id : Str
  text : Str
  author : Str
  subreddit : Str
  created : ℤ
  url : Str
  postTitle : Str
deriving DecidableEq, Inhabited

/-- The records handed to sentiment analysis by the orchestration. -/
structure AnalysisInput where
  id : Str
  text : Str
  author : Str
  subreddit : Str
  created : ℤ
  url : Str
deriving DecidableEq, Inhabited

namespace SentimentRoute

/-- One `Map.prototype.set` step on an association list that keeps JS `Map`
semantics: an existing key keeps its position and gets the new value, a new
key is appended. -/
def jsMapSet {α : Type} (m : List (Str × α)) (k : Str) (v : α) : List (Str × α) :=
  if m.any (fun kv => decide (kv.1 = k)) then
    m.map (fun kv => if kv.1 = k then (k, v) else kv)
  else m ++ [(k, v)]

/-- Model of the dedup step of the orchestration:
`Array.from(new Map(allPosts.map(p => [p.data.id, p])).values())`. -/
def dedupById (posts : List RedditPost) : List RedditPost :=
  (posts.foldl (fun m post => jsMapSet m post.id post) []).map Prod.snd

/-- The fallback population: a post turned into an analysis record
(title+body as text). -/
def postToAnalysisInput (post : RedditPost) : AnalysisInput :=
  { id := post.id, text := RedditClient.extractText post, author := post.author,
    subreddit := post.subreddit, created := post.created_utc * 1000,
    url := RedditClient.getPostUrl post }

/-- A surviving comment candidate turned into an analysis record (drops the
`postTitle` tag). -/
def commentToAnalysisInput (c : CommentRecord) : AnalysisInput :=
  { id := c.id, text := c.text, author := c.author, subreddit := c.subreddit,
    created := c.created, url := c.url }

/-- Model of the fallback cascade of the orchestration (route stage 4/5):
fewer than 5 surviving comment candidates means a bounded slice of the
deduplicated posts is analyzed instead; otherwise a bounded slice of the
candidates. -/
def itemsToAnalyze (uniquePosts : List RedditPost)
    (relevantComments : List CommentRecord) : List AnalysisInput :=
  if relevantComments.length < 5 then
    (uniquePosts.take 10).map postToAnalysisInput
  else
    (relevantComments.take 20).map commentToAnalysisInput

end SentimentRoute

/-- A post whose text mentions Tesla only inside the word "Teslacoil". -/
def postTeslacoil : RedditPost :=
  { id := "a1".toList, title := "My Teslacoil build".toList,
    selftext := "I love my Teslacoil, it is amazing".toList,
    author := "u1".toList, subreddit := "electronics".toList,
    created_utc := 0, permalink := "/r/electronics/a1".toList, score := 1 }

/-- A post whose title contains "Tesla's service" (a whole-word match). -/
def postTeslasService : RedditPost :=
  { id := "b2".toList, title := "Tesla's service was excellent".toList,
    selftext := "great experience overall".toList,
    author := "u2".toList, subreddit := "cars".toList,
    created_utc := 0, permalink := "/r/cars/b2".toList, score := 2 }

/-- A post about the inventor, matching the "nikola tesla" denylist entry. -/
def postNikolaTesla : RedditPost :=
  { id := "c3".toList, title := "Tesla the man".toList,
    selftext := "a post about nikola tesla and his inventions".toList,
    author := "u3".toList, subreddit := "history".toList,
    created_utc := 0, permalink := "/r/history/c3".toList, score := 3 }

/-- A minimal mention carrying only a sentiment label and score. -/
def demoMention (sentiment : Label) (score : ℚ) : MentionData :=
  { id := [], text := [], sentiment := sentiment, score := score,
    author := [], subreddit := [], created := 0, url := [] }

/-- A ten-mention cluster population with six negative mentions. -/
def demoNegCluster : List MentionData :=
  List.replicate 6 (demoMention .negative (-50)) ++
    List.replicate 4 (demoMention .positive 50)

/-- A single relevance-filter input that passes the heuristic pre-filter. -/
def demoItems : List ContentItem :=
  [{ id := "c1".toList,
     text := "I love tesla, great experience with the service overall".toList }]

/-- A sample deduplicated post for the fallback-cascade witness. -/
def demoPost : RedditPost :=
  { id := "p1".toList, title := "Tesla praise".toList, selftext := "body".toList,
    author := "u".toList, subreddit := "r".toList, created_utc := 5,
    permalink := "/r/x/p1".toList, score := 3 }

-- ===================================================================
-- Theorems
-- ===================================================================

theorem jsTrim_idem (s : Str) : jsTrim (jsTrim s) = jsTrim s := by
  have e : ∀ t : Str, jsTrim t = List.rdropWhile jsWs (t.dropWhile jsWs) := fun _ => rfl
  rw [e, e]
  have hdu : List.dropWhile jsWs (s.dropWhile jsWs) = s.dropWhile jsWs :=
    List.dropWhile_idempotent _ _
  have hpre : List.rdropWhile jsWs (s.dropWhile jsWs) <+: s.dropWhile jsWs :=
    List.rdropWhile_prefix _ _
  have hdv : List.dropWhile jsWs (List.rdropWhile jsWs (s.dropWhile jsWs)) =
      List.rdropWhile jsWs (s.dropWhile jsWs) := by
    rw [List.dropWhile_eq_self_iff]
    intro hl
    have hul : 0 < (s.dropWhile jsWs).length := lt_of_lt_of_le hl hpre.length_le
    have hget : (List.rdropWhile jsWs (s.dropWhile jsWs)).get ⟨0, hl⟩ =
        (s.dropWhile jsWs).get ⟨0, hul⟩ := by
      simpa using hpre.getElem (n := 0) hl
    rw [hget]
    exact (List.dropWhile_eq_self_iff.mp hdu) hul
  rw [hdv]
  exact List.rdropWhile_idempotent _ _

/-- C1. The claim states `generateTopics` falls back to `[entityName]` on
*any* failure, including an unparseable response; in the code only a thrown
call produces the fallback, while an unparseable response yields the empty
list, so the pipeline can proceed with zero topics. -/
theorem generateTopics_no_array_counterexample :
    TopicGenerator.generateTopics ("Tesla".toList) 5 (some ("no topics today".toList)) = [] ∧
    TopicGenerator.generateTopics ("Tesla".toList) 5 (some ("no topics today".toList)) ≠
      ["Tesla".toList] := by
  exact ⟨rfl, by decide⟩

/-- C1 (amended): `generateTopics` returns the single-element fallback
`[entityName]` exactly when the classification call throws; when the call
succeeds but the response holds no bracketed array, the result is the empty
list. -/
theorem generateTopics_fallback :
    ∀ (company : Str) (count : ℕ) (response : Str),
      TopicGenerator.generateTopics company count none = [company] ∧
      TopicGenerator.generateTopics company count none ≠ [] ∧
      (extractJsonArrayGreedy response = none →
        TopicGenerator.generateTopics company count (some response) = []) := by
  intro company count response
  refine ⟨rfl, by simp [TopicGenerator.generateTopics], ?_⟩
  intro h
  simp [TopicGenerator.generateTopics, TopicGenerator.parseTopics, h]

theorem generateTopics_fallback_witness :
    extractJsonArrayGreedy ("no topics today".toList) = none ∧
    TopicGenerator.generateTopics ("Acme".toList) 5 (some ("no topics today".toList)) = [] :=
  ⟨by decide,
   (generateTopics_fallback ("Acme".toList) 5 ("no topics today".toList)).2.2 (by decide)⟩

/-- C2. The claim states the returned topic list is deduplicated and capped
at the requested count `k`; the code neither deduplicates nor caps, as a
response with two identical entries against `k = 1` shows. -/
theorem generateTopics_no_dedup_counterexample :
    TopicGenerator.generateTopics ("X".toList) 1 (some ("[\"dup\", \"dup\"]".toList)) =
      ["dup".toList, "dup".toList] ∧
    ¬ (["dup".toList, "dup".toList] : List Str).Nodup ∧
    ¬ ((["dup".toList, "dup".toList] : List Str).length ≤ 1) := by
  exact ⟨rfl, by decide, by decide⟩

/-- C2 (amended): on a successful call every entry of the returned topic
list is a trimmed non-empty string, but the list is neither deduplicated nor
bounded by the requested count. -/
theorem generateTopics_entries_trimmed :
    ∀ (company : Str) (count : ℕ) (response : Str) (t : Str),
      t ∈ TopicGenerator.generateTopics company count (some response) →
      jsTrim t = t ∧ t ≠ [] := by
  intro company count response t ht
  simp only [TopicGenerator.generateTopics, TopicGenerator.parseTopics] at ht
  rcases hx : extractJsonArrayGreedy response with _ | jsonText
  · simp only [hx] at ht; simp at ht
  · simp only [hx] at ht
    rcases hp : jsonParse jsonText with _ | v
    · simp only [hp] at ht; simp at ht
    · cases v with
      | jarr topics =>
        simp only [hp] at ht
        simp only [List.mem_filterMap] at ht
        obtain ⟨v, _, hv⟩ := ht
        cases v with
        | jstr s =>
          by_cases hpos : 0 < (jsTrim s).length
          · simp only [hpos, if_pos, if_true] at hv
            obtain rfl := Option.some.inj hv
            exact ⟨jsTrim_idem s, by
              intro hnil
              rw [hnil] at hpos
              simp at hpos⟩
          · simp [hpos] at hv
        | jnull => simp at hv
        | jbool b => simp at hv
        | jnum m e => simp at hv
        | jarr l => simp at hv
        | jobj f => simp at hv
      | jnull => simp only [hp] at ht; simp at ht
      | jbool b => simp only [hp] at ht; simp at ht
      | jnum m e => simp only [hp] at ht; simp at ht
      | jstr s => simp only [hp] at ht; simp at ht
      | jobj f => simp only [hp] at ht; simp at ht

theorem generateTopics_entries_trimmed_witness :
    ("a".toList ∈ TopicGenerator.generateTopics ("X".toList) 1 (some ("[\" a \"]".toList))) ∧
    (jsTrim ("a".toList) = "a".toList ∧ "a".toList ≠ []) :=
  ⟨by decide,
   generateTopics_entries_trimmed ("X".toList) 1 ("[\" a \"]".toList) ("a".toList) (by decide)⟩

/-- C3. The claim states any call *or parse* failure keeps the whole batch;
in the code only a thrown call keeps the batch, while a response with no
parseable id array yields an empty id list and the batch is filtered down to
nothing. -/
theorem filterBatch_parse_failure_counterexample :
    RelevanceFilter.filterBatch ("Tesla".toList) (some ("sorry, no sentiment here".toList))
      [{ id := "a".toList, text := "I love Tesla".toList }] = [] ∧
    ([] : List ContentItem) ≠ [{ id := "a".toList, text := "I love Tesla".toList }] := by
  exact ⟨rfl, by decide⟩

/-- C3 (amended): a thrown classification call keeps the entire batch
(fail-open), but a successful call whose response holds no parseable id
array drops the entire batch, and in general only items whose id was parsed
back survive. -/
theorem filterBatch_fail_open :
    ∀ (company : Str) (items : List ContentItem) (response : Str),
      RelevanceFilter.filterBatch company none items = items ∧
      (extractJsonArrayNonGreedy response = none →
        RelevanceFilter.filterBatch company (some response) items = []) ∧
      (∀ item ∈ RelevanceFilter.filterBatch company (some response) items,
        (RelevanceFilter.parseRelevantIds response).contains item.id = true) := by
  intro company items response
  refine ⟨rfl, ?_, ?_⟩
  · intro h
    simp only [RelevanceFilter.filterBatch, RelevanceFilter.parseRelevantIds, h]
    simp
  · intro item hmem
    simp only [RelevanceFilter.filterBatch] at hmem
    simpa using List.of_mem_filter hmem

theorem filterBatch_fail_open_witness :
    extractJsonArrayNonGreedy ("sorry, nothing relevant".toList) = none ∧
    RelevanceFilter.filterBatch ("Acme".toList) (some ("sorry, nothing relevant".toList))
      demoItems = [] ∧
    RelevanceFilter.filterBatch ("Acme".toList) none demoItems = demoItems :=
  ⟨by decide,
   (filterBatch_fail_open ("Acme".toList) demoItems ("sorry, nothing relevant".toList)).2.1
     (by decide),
   (filterBatch_fail_open ("Acme".toList) demoItems ("sorry, nothing relevant".toList)).1⟩

/-- C4. The claim states an invalid sentiment label yields exactly
`{label: neutral, score: 0}`; the code coerces the label to neutral but
keeps the (clamped) parsed score, so a response with label "great" and
score 50 yields `{neutral, 50}`. -/
theorem analyze_invalid_label_counterexample :
    SentimentAnalyzer.analyze
      (some ("\x7b\"sentiment\": \"great\", \"score\": 50\x7d".toList)) =
      { label := .neutral, score := .num 50 } ∧
    ({ label := .neutral, score := JsNum.num 50 } : SentimentResult) ≠
      { label := .neutral, score := .num 0 } := by
  constructor
  · have h : SentimentAnalyzer.analyze
        (some ("\x7b\"sentiment\": \"great\", \"score\": 50\x7d".toList)) =
        { label := .neutral, score := .num (max (-100) (min 100 (q10 50 0))) } := rfl
    rw [h]
    have e : max (-100 : ℚ) (min 100 (q10 50 0)) = 50 := by norm_num [q10]
    rw [e]
  · intro h
    have h2 := congrArg SentimentResult.score h
    injection h2 with h3
    norm_num at h3

/-- C4 (amended): a missing brace-delimited object or a JSON parse failure
yields exactly `{neutral, 0}` and a thrown call does too; on a successful
parse the result is `validateResult` of the parsed fields, whose label
falls back to neutral for an unrecognized sentiment string (keeping the
coerced score), and whose score follows the JS coercion-and-clamp of the
score field: an absent field yields 0, a numeric field is clamped into
`[-100, 100]`, a truthy string field is `ToNumber`-coerced and then
clamped, and when that coercion gives NaN the NaN escapes the clamp into
the result. -/
theorem analyze_fallback :
    ∀ (response : Str) (fields : List (Str × JVal)),
      SentimentAnalyzer.analyze none = { label := .neutral, score := .num 0 } ∧
      (SentimentAnalyzer.parseResponse response = none →
        SentimentAnalyzer.analyze (some response) =
          { label := .neutral, score := .num 0 }) ∧
      (SentimentAnalyzer.parseResponse response = some fields →
        SentimentAnalyzer.analyze (some response) =
          SentimentAnalyzer.validateResult fields) ∧
      (∀ s : Str, jget fields ("sentiment".toList) = some (.jstr s) →
        s ≠ "positive".toList → s ≠ "neutral".toList → s ≠ "negative".toList →
        (SentimentAnalyzer.validateResult fields).label = .neutral) ∧
      (jget fields ("score".toList) = none →
        (SentimentAnalyzer.validateResult fields).score = .num 0) ∧
      (∀ m e : ℤ, jget fields ("score".toList) = some (.jnum m e) →
        (SentimentAnalyzer.validateResult fields).score =
          .num (max (-100) (min 100 (q10 m e))) ∧
        -100 ≤ max (-100 : ℚ) (min 100 (q10 m e)) ∧
        max (-100 : ℚ) (min 100 (q10 m e)) ≤ 100) ∧
      (∀ s : Str, jget fields ("score".toList) = some (.jstr s) → s ≠ [] →
        (∀ q : ℚ, strToNumber s = .num q →
          (SentimentAnalyzer.validateResult fields).score =
            .num (max (-100) (min 100 q))) ∧
        (strToNumber s = .nan →
          (SentimentAnalyzer.validateResult fields).score = .nan)) := by
  intro response fields
  refine ⟨rfl, ?_, ?_, ?_, ?_, ?_, ?_⟩
  · intro h
    simp only [SentimentAnalyzer.analyze, h]
    rfl
  · intro h
    simp only [SentimentAnalyzer.analyze, h]
  · intro s hs h1 h2 h3
    simp only [SentimentAnalyzer.validateResult, hs, h1, h2, h3, if_false]
  · intro h
    simp only [SentimentAnalyzer.validateResult, h, coerceClampScore, orZero, jsFalsy]
    have e : max (-100 : ℚ) (min 100 (q10 0 0)) = 0 := by norm_num [q10]
    simp only [if_pos rfl, toNumber, jsMin, jsMax, e]
  · intro m e h
    constructor
    · simp only [SentimentAnalyzer.validateResult, h, coerceClampScore, orZero, jsFalsy]
      by_cases hm : m = 0
      · subst hm
        have e1 : max (-100 : ℚ) (min 100 (q10 0 0)) = max (-100) (min 100 (q10 0 e)) := by
          simp [q10]
        simp only [decide_eq_true_eq, if_pos rfl, toNumber, jsMin, jsMax]
        rw [e1]
      · rw [if_neg (by simp [hm])]
        simp only [Option.getD_some, toNumber, jsMin, jsMax]
    · exact ⟨le_max_left _ _, max_le (by norm_num) (min_le_left _ _)⟩
  · intro s h hne
    have hfalse : jsFalsy (some (.jstr s)) = false := by
      cases s with
      | nil => exact absurd rfl hne
      | cons c cs => rfl
    constructor
    · intro q hq
      simp only [SentimentAnalyzer.validateResult, h, coerceClampScore, orZero, hfalse]
      simp only [Bool.false_eq_true, if_false, Option.getD_some, toNumber, hq, jsMin, jsMax]
    · intro hq
      simp only [SentimentAnalyzer.validateResult, h, coerceClampScore, orZero, hfalse]
      simp only [Bool.false_eq_true, if_false, Option.getD_some, toNumber, hq, jsMin, jsMax]

theorem analyze_fallback_witness :
    SentimentAnalyzer.parseResponse ("no json at all".toList) = none ∧
    SentimentAnalyzer.analyze (some ("no json at all".toList)) =
      { label := .neutral, score := .num 0 } ∧
    (SentimentAnalyzer.validateResult
        [("sentiment".toList, JVal.jstr ("great".toList))]).label = .neutral ∧
    strToNumber ("high".toList) = .nan ∧
    (SentimentAnalyzer.validateResult
        [("score".toList, JVal.jstr ("high".toList))]).score = .nan :=
  ⟨rfl,
   (analyze_fallback ("no json at all".toList) []).2.1 rfl,
   (analyze_fallback [] [("sentiment".toList, JVal.jstr ("great".toList))]).2.2.2.1
     ("great".toList) rfl (by decide) (by decide) (by decide),
   rfl,
   ((analyze_fallback [] [("score".toList, JVal.jstr ("high".toList))]).2.2.2.2.2.2
     ("high".toList) rfl (by decide)).2 rfl⟩

/-- C5. For a non-empty cluster, `shouldAddress` holds exactly on the
40%-negative or (3 negatives and average below -10) rule; an addressed
cluster is high priority exactly on the 60%-negative or average at most -30
rule and medium otherwise; an unaddressed cluster is low priority; the two
concrete threshold examples of the specification follow. -/
theorem analyzeCluster_priority_rule :
    ∀ (topic description : Str) (mentions : List MentionData),
      mentions ≠ [] →
      ∀ (neg : ℕ) (negPct avg : ℚ),
        neg = (mentions.filter (fun m => m.sentiment == Label.negative)).length →
        negPct = ((neg : ℚ) / (mentions.length : ℚ)) * 100 →
        avg = (mentions.map (fun m => m.score)).sum / (mentions.length : ℚ) →
        (((TopicAnalyzer.analyzeCluster topic description mentions).shouldAddress = true) ↔
          (40 ≤ negPct ∨ (3 ≤ neg ∧ avg < -10))) ∧
        ((TopicAnalyzer.analyzeCluster topic description mentions).shouldAddress = true →
          (((TopicAnalyzer.analyzeCluster topic description mentions).priority = .high) ↔
            (60 ≤ negPct ∨ avg ≤ -30))) ∧
        ((TopicAnalyzer.analyzeCluster topic description mentions).shouldAddress = true →
          ¬(60 ≤ negPct ∨ avg ≤ -30) →
          (TopicAnalyzer.analyzeCluster topic description mentions).priority = .medium) ∧
        ((TopicAnalyzer.analyzeCluster topic description mentions).shouldAddress = false →
          (TopicAnalyzer.analyzeCluster topic description mentions).priority = .low) ∧
        (mentions.length = 10 → neg = 6 →
          (TopicAnalyzer.analyzeCluster topic description mentions).shouldAddress = true ∧
          (TopicAnalyzer.analyzeCluster topic description mentions).priority = .high) ∧
        (mentions.length = 10 → neg = 4 → avg = -15 →
          (TopicAnalyzer.analyzeCluster topic description mentions).shouldAddress = true ∧
          (TopicAnalyzer.analyzeCluster topic description mentions).priority = .medium) := by
  intro topic description mentions hne neg negPct avg hneg hpct havg
  have h1 : ((TopicAnalyzer.analyzeCluster topic description mentions).shouldAddress = true) ↔
      (40 ≤ negPct ∨ (3 ≤ neg ∧ avg < -10)) := by
    simp only [TopicAnalyzer.analyzeCluster]
    rw [← hneg, ← hpct, ← havg]
    simp
  have h2 : (TopicAnalyzer.analyzeCluster topic description mentions).shouldAddress = true →
      (((TopicAnalyzer.analyzeCluster topic description mentions).priority = .high) ↔
        (60 ≤ negPct ∨ avg ≤ -30)) := by
    intro hS
    simp only [TopicAnalyzer.analyzeCluster] at hS ⊢
    rw [← hneg, ← hpct, ← havg] at hS ⊢
    rw [if_pos hS]
    by_cases hc1 : 60 ≤ negPct ∨ avg ≤ -30
    · rw [if_pos hc1]
      simp [hc1]
    · rw [if_neg hc1]
      by_cases hc2 : 50 ≤ negPct ∨ avg ≤ -20
      · rw [if_pos hc2]
        simp [hc1]
      · rw [if_neg hc2]
        simp [hc1]
  have h3 : (TopicAnalyzer.analyzeCluster topic description mentions).shouldAddress = true →
      ¬(60 ≤ negPct ∨ avg ≤ -30) →
      (TopicAnalyzer.analyzeCluster topic description mentions).priority = .medium := by
    intro hS hcond
    simp only [TopicAnalyzer.analyzeCluster] at hS ⊢
    rw [← hneg, ← hpct, ← havg] at hS ⊢
    rw [if_pos hS, if_neg hcond]
    by_cases hc2 : 50 ≤ negPct ∨ avg ≤ -20
    · rw [if_pos hc2]
    · rw [if_neg hc2]
  have h4 : (TopicAnalyzer.analyzeCluster topic description mentions).shouldAddress = false →
      (TopicAnalyzer.analyzeCluster topic description mentions).priority = .low := by
    intro hS
    simp only [TopicAnalyzer.analyzeCluster] at hS ⊢
    rw [← hneg, ← hpct, ← havg] at hS ⊢
    rw [if_neg (by simp [hS])]
  refine ⟨h1, h2, h3, h4, ?_, ?_⟩
  · intro hlen hneg6
    have hpct60 : negPct = 60 := by rw [hpct, hneg6, hlen]; norm_num
    have hS : (TopicAnalyzer.analyzeCluster topic description mentions).shouldAddress = true :=
      h1.mpr (Or.inl (by rw [hpct60]; norm_num))
    exact ⟨hS, (h2 hS).mpr (Or.inl (by rw [hpct60]))⟩
  · intro hlen hneg4 havg15
    have hpct40 : negPct = 40 := by rw [hpct, hneg4, hlen]; norm_num
    have hS : (TopicAnalyzer.analyzeCluster topic description mentions).shouldAddress = true :=
      h1.mpr (Or.inl (by rw [hpct40]))
    refine ⟨hS, h3 hS ?_⟩
    rw [hpct40, havg15]
    push_neg
    norm_num

theorem analyzeCluster_priority_rule_witness :
    demoNegCluster ≠ [] ∧ demoNegCluster.length = 10 ∧
    (demoNegCluster.filter (fun m => m.sentiment == Label.negative)).length = 6 ∧
    ((TopicAnalyzer.analyzeCluster ("t".toList) ("d".toList) demoNegCluster).shouldAddress = true ∧
      (TopicAnalyzer.analyzeCluster ("t".toList) ("d".toList) demoNegCluster).priority = .high) :=
  ⟨by decide, by decide, by decide,
   (analyzeCluster_priority_rule ("t".toList) ("d".toList) demoNegCluster (by decide)
     ((demoNegCluster.filter (fun m => m.sentiment == Label.negative)).length)
     (((((demoNegCluster.filter (fun m => m.sentiment == Label.negative)).length : ℕ) : ℚ) /
        (demoNegCluster.length : ℚ)) * 100)
     ((demoNegCluster.map (fun m => m.score)).sum / (demoNegCluster.length : ℚ))
     rfl rfl rfl).2.2.2.2.1 (by decide) (by decide)⟩

/-- C6. With fewer than 5 surviving comment candidates the analyzed
population is a bounded slice (at most 10) of the deduplicated posts with
title+body as text and the candidates are unused; with 5 or more it is a
bounded slice (at most 20) of the candidates. -/
theorem itemsToAnalyze_fallback_cascade :
    ∀ (uniquePosts : List RedditPost) (relevantComments : List CommentRecord),
      (relevantComments.length < 5 →
        SentimentRoute.itemsToAnalyze uniquePosts relevantComments =
          (uniquePosts.take 10).map SentimentRoute.postToAnalysisInput ∧
        (SentimentRoute.itemsToAnalyze uniquePosts relevantComments).length ≤ 10 ∧
        (∀ it ∈ SentimentRoute.itemsToAnalyze uniquePosts relevantComments,
          ∃ p ∈ uniquePosts, it = SentimentRoute.postToAnalysisInput p ∧
            it.text = jsTrim (p.title ++ ' ' :: p.selftext))) ∧
      (5 ≤ relevantComments.length →
        SentimentRoute.itemsToAnalyze uniquePosts relevantComments =
          (relevantComments.take 20).map SentimentRoute.commentToAnalysisInput ∧
        (SentimentRoute.itemsToAnalyze uniquePosts relevantComments).length ≤ 20) := by
  intro uniquePosts relevantComments
  constructor
  · intro hlt
    have he : SentimentRoute.itemsToAnalyze uniquePosts relevantComments =
        (uniquePosts.take 10).map SentimentRoute.postToAnalysisInput := by
      simp [SentimentRoute.itemsToAnalyze, hlt]
    refine ⟨he, ?_, ?_⟩
    · rw [he]
      simp only [List.length_map, List.length_take]
      omega
    · intro it hit
      rw [he] at hit
      obtain ⟨p, hp, rfl⟩ := List.mem_map.mp hit
      exact ⟨p, List.take_subset _ _ hp, rfl, rfl⟩
  · intro hge
    have he : SentimentRoute.itemsToAnalyze uniquePosts relevantComments =
        (relevantComments.take 20).map SentimentRoute.commentToAnalysisInput := by
      simp [SentimentRoute.itemsToAnalyze, Nat.not_lt.mpr hge]
    refine ⟨he, ?_⟩
    rw [he]
    simp only [List.length_map, List.length_take]
    omega

theorem itemsToAnalyze_fallback_cascade_witness :
    (List.replicate 4 (default : CommentRecord)).length < 5 ∧
    SentimentRoute.itemsToAnalyze [demoPost] (List.replicate 4 (default : CommentRecord)) =
      [SentimentRoute.postToAnalysisInput demoPost] :=
  ⟨by decide,
   ((itemsToAnalyze_fallback_cascade [demoPost]
      (List.replicate 4 (default : CommentRecord))).1 (by decide)).1⟩

theorem jsMapSet_keys_in {α : Type} (m : List (Str × α)) (k : Str) (v : α)
    (h : m.any (fun kv => decide (kv.1 = k)) = true) :
    (SentimentRoute.jsMapSet m k v).map Prod.fst = m.map Prod.fst := by
  unfold SentimentRoute.jsMapSet
  rw [if_pos h, List.map_map]
  apply List.map_congr_left
  intro kv _
  by_cases hk : kv.1 = k
  · simp [Function.comp, hk]
  · simp [Function.comp, hk]

theorem jsMapSet_keys_out {α : Type} (m : List (Str × α)) (k : Str) (v : α)
    (h : m.any (fun kv => decide (kv.1 = k)) = false) :
    (SentimentRoute.jsMapSet m k v).map Prod.fst = m.map Prod.fst ++ [k] := by
  unfold SentimentRoute.jsMapSet
  rw [if_neg (by simp [h]), List.map_append]
  rfl

theorem mem_keys_jsMapSet {α : Type} (m : List (Str × α)) (k : Str) (v : α) (a : Str) :
    (a ∈ (SentimentRoute.jsMapSet m k v).map Prod.fst) ↔
      a ∈ m.map Prod.fst ∨ a = k := by
  rcases hany : m.any (fun kv => decide (kv.1 = k)) with _ | _
  · rw [jsMapSet_keys_out m k v hany, List.mem_append, List.mem_singleton]
  · rw [jsMapSet_keys_in m k v hany]
    have hk : k ∈ m.map Prod.fst := by
      simp only [List.any_eq_true, decide_eq_true_eq] at hany
      obtain ⟨kv, hkv, he⟩ := hany
      exact List.mem_map.mpr ⟨kv, hkv, he⟩
    constructor
    · exact Or.inl
    · rintro (ha | rfl)
      · exact ha
      · exact hk

theorem nodup_keys_jsMapSet {α : Type} (m : List (Str × α)) (k : Str) (v : α)
    (h : (m.map Prod.fst).Nodup) :
    ((SentimentRoute.jsMapSet m k v).map Prod.fst).Nodup := by
  rcases hany : m.any (fun kv => decide (kv.1 = k)) with _ | _
  · rw [jsMapSet_keys_out m k v hany]
    have hk : k ∉ m.map Prod.fst := by
      intro hmem
      obtain ⟨kv, hkv, he⟩ := List.mem_map.mp hmem
      have : m.any (fun kv => decide (kv.1 = k)) = true :=
        List.any_eq_true.mpr ⟨kv, hkv, by simp [he]⟩
      rw [hany] at this
      cases this
    rw [List.nodup_append]
    refine ⟨h, List.nodup_singleton k, ?_⟩
    intro a ha hb
    rw [List.mem_singleton] at hb
    exact hk (hb ▸ ha)
  · rw [jsMapSet_keys_in m k v hany]
    exact h

theorem mem_jsMapSet {α : Type} (m : List (Str × α)) (k : Str) (v : α)
    (k' : Str) (v' : α) :
    ((k', v') ∈ SentimentRoute.jsMapSet m k v) ↔
      (k' = k ∧ v' = v) ∨ ((k', v') ∈ m ∧ k' ≠ k) := by
  unfold SentimentRoute.jsMapSet
  rcases hany : m.any (fun kv => decide (kv.1 = k)) with _ | _
  · rw [if_neg (by decide)]
    have hall : ∀ kv ∈ m, kv.1 ≠ k := by
      intro kv hkv he
      have : m.any (fun kv => decide (kv.1 = k)) = true :=
        List.any_eq_true.mpr ⟨kv, hkv, by simp [he]⟩
      rw [hany] at this
      cases this
    rw [List.mem_append, List.mem_singleton]
    constructor
    · rintro (hin | he)
      · exact Or.inr ⟨hin, hall _ hin⟩
      · rw [Prod.mk.injEq] at he
        exact Or.inl he
    · rintro (⟨rfl, rfl⟩ | ⟨hin, _⟩)
      · exact Or.inr rfl
      · exact Or.inl hin
  · rw [if_pos rfl]
    constructor
    · intro hmem
      obtain ⟨kv, hkv, he⟩ := List.mem_map.mp hmem
      by_cases hk : kv.1 = k
      · rw [if_pos hk] at he
        rw [Prod.mk.injEq] at he
        exact Or.inl ⟨he.1.symm, he.2.symm⟩
      · rw [if_neg hk] at he
        subst he
        exact Or.inr ⟨hkv, hk⟩
    · rintro (⟨rfl, rfl⟩ | ⟨hin, hne⟩)
      · simp only [List.any_eq_true, decide_eq_true_eq] at hany
        obtain ⟨kv, hkv, he⟩ := hany
        exact List.mem_map.mpr ⟨kv, hkv, by rw [if_pos he]⟩
      · exact List.mem_map.mpr ⟨(k', v'), hin, by rw [if_neg hne]⟩

theorem foldIns_mem_keys :
    ∀ (posts : List RedditPost) (acc : List (Str × RedditPost)) (k : Str),
      (k ∈ (posts.foldl (fun m post => SentimentRoute.jsMapSet m post.id post) acc).map
          Prod.fst) ↔
        k ∈ acc.map Prod.fst ∨ k ∈ posts.map (fun p => p.id) := by
  intro posts
  induction posts with
  | nil => intro acc k; simp
  | cons p ps ih =>
    intro acc k
    rw [List.foldl_cons, ih]
    rw [mem_keys_jsMapSet]
    simp only [List.map_cons, List.mem_cons]
    tauto

theorem foldIns_nodup_keys :
    ∀ (posts : List RedditPost) (acc : List (Str × RedditPost)),
      (acc.map Prod.fst).Nodup →
      ((posts.foldl (fun m post => SentimentRoute.jsMapSet m post.id post) acc).map
        Prod.fst).Nodup := by
  intro posts
  induction posts with
  | nil => intro acc h; exact h
  | cons p ps ih =>
    intro acc h
    rw [List.foldl_cons]
    exact ih _ (nodup_keys_jsMapSet _ _ _ h)

theorem getLast?_cons_of_ne_nil {α : Type} (a : α) {l : List α} (h : l ≠ []) :
    (a :: l).getLast? = l.getLast? := by
  cases l with
  | nil => exact absurd rfl h
  | cons b t => exact List.getLast?_cons_cons

theorem foldIns_entry :
    ∀ (posts : List RedditPost) (acc : List (Str × RedditPost)) (k : Str) (v : RedditPost),
      ((k, v) ∈ posts.foldl (fun m post => SentimentRoute.jsMapSet m post.id post) acc) ↔
        (match (posts.filter (fun q => decide (q.id = k))).getLast? with
         | some q => v = q
         | none => (k, v) ∈ acc) := by
  intro posts
  induction posts with
  | nil => intro acc k v; simp
  | cons p ps ih =>
    intro acc k v
    rw [List.foldl_cons, ih]
    rcases hlast : (ps.filter (fun q => decide (q.id = k))).getLast? with _ | q
    · have hnil : ps.filter (fun q => decide (q.id = k)) = [] := by
        rwa [List.getLast?_eq_none_iff] at hlast
      by_cases hp : p.id = k
      · have hcons : ((p :: ps).filter (fun q => decide (q.id = k))).getLast? = some p := by
          rw [List.filter_cons, if_pos (by simp [hp]), hnil]
          rfl
        simp only [hlast, hcons]
        rw [mem_jsMapSet]
        constructor
        · rintro (⟨rfl, rfl⟩ | ⟨_, hne⟩)
          · rfl
          · exact absurd hp.symm hne
        · rintro rfl
          exact Or.inl ⟨hp.symm, rfl⟩
      · have hcons : ((p :: ps).filter (fun q => decide (q.id = k))).getLast? = none := by
          rw [List.filter_cons, if_neg (by simp [hp]), hnil]
          rfl
        simp only [hlast, hcons]
        rw [mem_jsMapSet]
        constructor
        · rintro (⟨rfl, _⟩ | ⟨hin, _⟩)
          · exact absurd rfl hp
          · exact hin
        · intro hin
          exact Or.inr ⟨hin, fun he => hp he.symm⟩
    · have hne : ps.filter (fun q => decide (q.id = k)) ≠ [] := by
        intro h
        rw [h] at hlast
        cases hlast
      have hcons : ((p :: ps).filter (fun q => decide (q.id = k))).getLast? = some q := by
        rw [List.filter_cons]
        by_cases hp : p.id = k
        · rw [if_pos (by simp [hp]), getLast?_cons_of_ne_nil _ hne]
          exact hlast
        · rw [if_neg (by simp [hp])]
          exact hlast
      simp only [hlast, hcons]

/-- C7. The map-based dedup keyed by post id: the result has as many
entries as there are distinct ids, every kept entry is the last occurrence
of its id in the input, the set of ids is preserved, and result ids are
pairwise distinct — for every input ordering. -/
theorem dedupById_last_write_wins :
    ∀ posts : List RedditPost,
      (SentimentRoute.dedupById posts).length =
        (posts.map (fun p => p.id)).dedup.length ∧
      (∀ p ∈ SentimentRoute.dedupById posts,
        (posts.filter (fun q => decide (q.id = p.id))).getLast? = some p) ∧
      (∀ k, (k ∈ (SentimentRoute.dedupById posts).map (fun p => p.id)) ↔
        k ∈ posts.map (fun p => p.id)) ∧
      ((SentimentRoute.dedupById posts).map (fun p => p.id)).Nodup := by
  intro posts
  have hdef : SentimentRoute.dedupById posts =
      (posts.foldl (fun m post => SentimentRoute.jsMapSet m post.id post) []).map
        Prod.snd := rfl
  have hvid : ∀ kv ∈ posts.foldl (fun m post => SentimentRoute.jsMapSet m post.id post) [],
      kv.2.id = kv.1 ∧
      (posts.filter (fun q => decide (q.id = kv.1))).getLast? = some kv.2 := by
    rintro ⟨k, v⟩ hkv
    have h := (foldIns_entry posts [] k v).mp hkv
    rcases hlast : (posts.filter (fun q => decide (q.id = k))).getLast? with _ | q
    · rw [hlast] at h
      simp at h
    · rw [hlast] at h
      simp only at h
      subst h
      have hqmem : v ∈ posts.filter (fun q => decide (q.id = k)) :=
        List.mem_of_mem_getLast? (by rw [hlast]; exact rfl)
      have hqid : v.id = k := of_decide_eq_true (List.mem_filter.mp hqmem).2
      exact ⟨hqid, hlast⟩
  have hids : (SentimentRoute.dedupById posts).map (fun p => p.id) =
      (posts.foldl (fun m post => SentimentRoute.jsMapSet m post.id post) []).map
        Prod.fst := by
    rw [hdef, List.map_map]
    apply List.map_congr_left
    intro kv hkv
    exact (hvid kv hkv).1
  have hmemkeys : ∀ k,
      (k ∈ (posts.foldl (fun m post => SentimentRoute.jsMapSet m post.id post) []).map
        Prod.fst) ↔ k ∈ posts.map (fun p => p.id) := by
    intro k
    have h := foldIns_mem_keys posts [] k
    simpa using h
  have hnodup : ((posts.foldl (fun m post => SentimentRoute.jsMapSet m post.id post)
      []).map Prod.fst).Nodup := foldIns_nodup_keys posts [] (by simp)
  refine ⟨?_, ?_, ?_, ?_⟩
  · have hlen1 : (SentimentRoute.dedupById posts).length =
        ((SentimentRoute.dedupById posts).map (fun p => p.id)).length :=
      (List.length_map _ _).symm
    have hperm : ((posts.foldl (fun m post => SentimentRoute.jsMapSet m post.id post)
        []).map Prod.fst).Perm (posts.map (fun p => p.id)).dedup := by
      rw [List.perm_ext_iff_of_nodup hnodup (List.nodup_dedup _)]
      intro a
      rw [List.mem_dedup]
      exact hmemkeys a
    rw [hlen1, hids, hperm.length_eq]
  · intro p hp
    rw [hdef] at hp
    obtain ⟨kv, hkv, he⟩ := List.mem_map.mp hp
    obtain ⟨h1, h2⟩ := hvid kv hkv
    have hpid : p.id = kv.1 := by rw [← he]; exact h1
    rw [hpid]
    rw [he] at h2
    exact h2
  · intro k
    rw [hids]
    exact hmemkeys k
  · rw [hids]
    exact hnodup

theorem dedupById_last_write_wins_witness :
    (demoPost ∈ SentimentRoute.dedupById [demoPost, demoPost]) ∧
    ([demoPost, demoPost].filter (fun q => decide (q.id = demoPost.id))).getLast? =
      some demoPost :=
  ⟨by decide, (dedupById_last_write_wins [demoPost, demoPost]).2.1 demoPost (by decide)⟩

/-- C8. Every post returned by the strict search post-filter contains the
(escaped, lowercased) entity name as a whole word in the title or in the
combined title-plus-first-500-body text, and matches no denylist pattern;
concretely for "Tesla": a "Teslacoil"-only post is rejected, "Tesla's
service" passes the whole-word match, and a "nikola tesla" post is rejected
by the denylist. -/
theorem search_strict_filter_whole_word :
    (∀ (company : Str) (limit : ℕ) (posts : List RedditPost) (p : RedditPost),
      company ≠ [] →
      p ∈ RedditClient.searchPostFilter (some company) limit posts →
      ((rtest (wholeWordToks (lc company)) (lc p.title) = true ∨
        rtest (wholeWordToks (lc company)) (RedditClient.textToCheck p) = true) ∧
       (∀ pat ∈ RedditClient.irrelevantPatterns,
         rtest pat (RedditClient.textToCheck p) = false))) ∧
    RedditClient.keepPost ("Tesla".toList) postTeslacoil = false ∧
    RedditClient.keepPost ("Tesla".toList) postTeslasService = true ∧
    RedditClient.keepPost ("Tesla".toList) postNikolaTesla = false := by
  refine ⟨?_, by decide, by decide, by decide⟩
  intro company limit posts p hc hp
  simp only [RedditClient.searchPostFilter] at hp
  rw [if_neg hc] at hp
  have hmem : p ∈ posts.filter (RedditClient.keepPost company) :=
    List.take_subset _ _ hp
  have hkeep : RedditClient.keepPost company p = true := List.of_mem_filter hmem
  unfold RedditClient.keepPost at hkeep
  by_cases h1 : (!rtest (wholeWordToks (lc company)) (lc p.title) &&
      !rtest (wholeWordToks (lc company)) (RedditClient.textToCheck p)) = true
  · rw [if_pos h1] at hkeep
    cases hkeep
  · rw [if_neg h1] at hkeep
    constructor
    · rw [Bool.and_eq_true, Bool.not_eq_true', Bool.not_eq_true'] at h1
      rcases Bool.eq_false_or_eq_true (rtest (wholeWordToks (lc company)) (lc p.title)) with
        ht | ht
      · exact Or.inl ht
      · rcases Bool.eq_false_or_eq_true
            (rtest (wholeWordToks (lc company)) (RedditClient.textToCheck p)) with he | he
        · exact Or.inr he
        · exact absurd ⟨ht, he⟩ h1
    · by_cases h2 : (RedditClient.irrelevantPatterns.any
          (fun pat => rtest pat (RedditClient.textToCheck p))) = true
      · rw [if_pos h2] at hkeep
        cases hkeep
      · intro pat hpat
        have h2f : RedditClient.irrelevantPatterns.any
            (fun pat => rtest pat (RedditClient.textToCheck p)) = false :=
          Bool.eq_false_iff.mpr h2
        exact Bool.eq_false_iff.mpr (List.any_eq_false.mp h2f pat hpat)

theorem search_strict_filter_whole_word_witness :
    ("Tesla".toList ≠ ([] : Str) ∧
      postTeslasService ∈
        RedditClient.searchPostFilter (some ("Tesla".toList)) 15
          [postTeslacoil, postTeslasService, postNikolaTesla]) ∧
    ((rtest (wholeWordToks (lc ("Tesla".toList))) (lc postTeslasService.title) = true ∨
      rtest (wholeWordToks (lc ("Tesla".toList)))
        (RedditClient.textToCheck postTeslasService) = true) ∧
     (∀ pat ∈ RedditClient.irrelevantPatterns,
       rtest pat (RedditClient.textToCheck postTeslasService) = false)) :=
  ⟨⟨by decide, by decide⟩,
   search_strict_filter_whole_word.1 ("Tesla".toList) 15
     [postTeslacoil, postTeslasService, postNikolaTesla] postTeslasService
     (by decide) (by decide)⟩

/-- C9. For every current score (also out-of-range ones), every hours ≥ 1
and every random sequence, `generate` returns exactly `hours` points, every
score is clamped into `[-100, 100]`, timestamps are strictly increasing and
spaced one hour (3 600 000 ms) apart, and the last point sits at the current
time. -/
theorem generate_history_bounds :
    ∀ (rand : ℕ → ℚ) (now : ℤ) (currentScore : ℚ) (hours : ℕ), 1 ≤ hours →
      (HistoryGenerator.generate rand now currentScore hours).length = hours ∧
      (∀ pt ∈ HistoryGenerator.generate rand now currentScore hours,
        -100 ≤ pt.score ∧ pt.score ≤ 100) ∧
      (∀ (j : ℕ) (hj : j + 1 < (HistoryGenerator.generate rand now currentScore hours).length),
        (HistoryGenerator.generate rand now currentScore hours)[j + 1].timestamp =
          (HistoryGenerator.generate rand now currentScore hours)[j].timestamp + 3600000) ∧
      (((HistoryGenerator.generate rand now currentScore hours).map
        (fun pt => pt.timestamp)).Pairwise (· < ·)) ∧
      (∀ hlt : hours - 1 < (HistoryGenerator.generate rand now currentScore hours).length,
        (HistoryGenerator.generate rand now currentScore hours)[hours - 1].timestamp = now) := by
  intro rand now currentScore hours hone
  have hlen : (HistoryGenerator.generate rand now currentScore hours).length = hours := by
    simp [HistoryGenerator.generate]
  refine ⟨hlen, ?_, ?_, ?_, ?_⟩
  · intro pt hpt
    simp only [HistoryGenerator.generate, List.mem_map] at hpt
    obtain ⟨j, hj, rfl⟩ := hpt
    exact ⟨le_max_left _ _, max_le (by norm_num) (min_le_left _ _)⟩
  · intro j hj
    have hj2 : j + 1 < hours := by rwa [hlen] at hj
    simp only [HistoryGenerator.generate, List.getElem_map, List.getElem_range]
    have e : (hours - 1 - j : ℕ) = (hours - 1 - (j + 1)) + 1 := by omega
    rw [e]
    push_cast
    ring
  · rw [List.pairwise_iff_getElem]
    intro i j hi hj hij
    simp only [HistoryGenerator.generate, List.length_map, List.length_range] at hi hj
    simp only [HistoryGenerator.generate, List.getElem_map, List.getElem_range]
    have hsub : (hours - 1 - j) < (hours - 1 - i) := by omega
    omega
  · intro hlt
    simp only [HistoryGenerator.generate, List.getElem_map, List.getElem_range]
    have e : hours - 1 - (hours - 1) = 0 := by omega
    rw [e]
    simp

theorem generate_history_bounds_witness :
    (1 ≤ 24) ∧
    (HistoryGenerator.generate (fun _ => (1 : ℚ) / 2) 0 150 24).length = 24 ∧
    (∀ pt ∈ HistoryGenerator.generate (fun _ => (1 : ℚ) / 2) 0 150 24,
      -100 ≤ pt.score ∧ pt.score ≤ 100) :=
  ⟨by decide,
   (generate_history_bounds (fun _ => (1 : ℚ) / 2) 0 150 24 (by decide)).1,
   (generate_history_bounds (fun _ => (1 : ℚ) / 2) 0 150 24 (by decide)).2.1⟩

theorem chunksAux_flatten {n : ℕ} (hn : 0 < n) :
    ∀ (fuel : ℕ) (l : List ContentItem), l.length ≤ fuel →
      (RelevanceFilter.chunksAux n fuel l).flatten = l := by
  intro fuel
  induction fuel with
  | zero =>
    intro l hl
    have : l = [] := List.eq_nil_of_length_eq_zero (Nat.le_zero.mp hl)
    subst this
    rfl
  | succ fuel ih =>
    intro l hl
    cases l with
    | nil => rfl
    | cons x xs =>
      have hlen2 : ((x :: xs).drop n).length ≤ fuel := by
        rw [List.length_drop]
        have hc : (x :: xs).length = xs.length + 1 := rfl
        omega
      have hstep : RelevanceFilter.chunksAux n (fuel + 1) (x :: xs) =
          (x :: xs).take n :: RelevanceFilter.chunksAux n fuel ((x :: xs).drop n) := rfl
      rw [hstep, List.flatten_cons, ih ((x :: xs).drop n) hlen2]
      exact List.take_append_drop n (x :: xs)

theorem flatten_enumFrom_sublist (g : ℕ → List ContentItem → List ContentItem)
    (hg : ∀ i b, List.Sublist (g i b) b) :
    ∀ (bs : List (List ContentItem)) (k : ℕ),
      List.Sublist ((List.enumFrom k bs).map (fun ib => g ib.1 ib.2)).flatten bs.flatten := by
  intro bs
  induction bs with
  | nil => intro k; exact List.Sublist.refl _
  | cons b rest ih =>
    intro k
    rw [List.enumFrom_cons, List.map_cons, List.flatten_cons, List.flatten_cons]
    exact List.Sublist.append (hg k b) (ih (k + 1))

theorem filterBatch_sublist (company : Str) (call : Option Str)
    (items : List ContentItem) :
    List.Sublist (RelevanceFilter.filterBatch company call items) items := by
  cases call with
  | none => exact List.Sublist.refl _
  | some r => exact List.filter_sublist _

/-- C10. `filterRelevant` always returns a sublist of its input (items in
input order, at most as often as they occur), and every returned item passes
the heuristic pre-filter — the fail-open path can only restore a full batch
of pre-filter survivors, never a pre-filter reject. -/
theorem filterRelevant_sublist_prefilter :
    ∀ (oracle : ℕ → Option Str) (items : List ContentItem) (company : Str)
      (batchSize : ℕ), 0 < batchSize →
      List.Sublist (RelevanceFilter.filterRelevant oracle items company batchSize) items ∧
      (∀ x ∈ RelevanceFilter.filterRelevant oracle items company batchSize,
        RelevanceFilter.isObviouslyIrrelevant x.text company = false) := by
  intro oracle items company batchSize hbs
  by_cases hnil : items = []
  · subst hnil
    constructor
    · simp [RelevanceFilter.filterRelevant]
    · intro x hx
      simp [RelevanceFilter.filterRelevant] at hx
  · have hsub_pre :
        List.Sublist (RelevanceFilter.filterRelevant oracle items company batchSize)
          (items.filter (fun item => !RelevanceFilter.isObviouslyIrrelevant item.text company)) := by
      unfold RelevanceFilter.filterRelevant
      rw [if_neg hnil]
      by_cases hpre :
          items.filter (fun item => !RelevanceFilter.isObviouslyIrrelevant item.text company) = [] 
      · rw [if_pos hpre]
        exact List.nil_sublist _
      · rw [if_neg hpre]
        have h1 := flatten_enumFrom_sublist
          (fun i b => RelevanceFilter.filterBatch company (oracle i) b)
          (fun i b => filterBatch_sublist company (oracle i) b)
          (RelevanceFilter.chunks batchSize
            (items.filter (fun item => !RelevanceFilter.isObviouslyIrrelevant item.text company)))
          0
        simp only [RelevanceFilter.chunks] at h1
        rw [chunksAux_flatten hbs _ _ (le_refl _)] at h1
        simp only [List.enum, RelevanceFilter.chunks]
        exact h1
    constructor
    · exact hsub_pre.trans (List.filter_sublist _)
    · intro x hx
      have hx_pre := hsub_pre.subset hx
      have := List.of_mem_filter hx_pre
      rwa [Bool.not_eq_true'] at this

theorem filterRelevant_sublist_prefilter_witness :
    (0 < 10) ∧
    List.Sublist (RelevanceFilter.filterRelevant (fun _ => none) demoItems ("tesla".toList) 10)
      demoItems :=
  ⟨by decide,
   (filterRelevant_sublist_prefilter (fun _ => none) demoItems ("tesla".toList) 10
     (by decide)).1⟩
